import Mathlib

/-
Verification of the file_catalog metadata engine (src/file_catalog/mongo.py and
src/file_catalog/server.py) against its natural-language specification.

The store is modelled as three in-memory lists of documents (files, collections,
snapshots) in insertion order, matching MongoDB natural order for this workload.
MongoDB primitives are embedded as list operations:
  find_one         -> List.find? (first match in natural order)
  find + cursor    -> List.filter, then the hand-rolled limit/start loop
  update_one $set  -> replace the fields of the first matching document
  replace_one      -> replace the first matching document wholesale
  delete_one       -> remove the first matching document
  $addToSet $each  -> append each element not already present, in order
Unique indexes (files.uuid, files.logical_name, files.locations elements) are
modelled as a raise condition on insert/update; an uncaught raise surfaces
through the catch_error decorator as a generic internal error.

External collaborators that are not in src/ (the schema validator, the
argbuilder query parsing, pathfinder.contains_existing_filepaths) are modelled
as boolean parameters giving the outcome of those pre-checks, per the spec
section 1 which scopes them out of the core.  Timestamp stamping
(meta_modify_date, create_date) carries no information relevant to any claim
and is not modelled as a field.
-/

namespace FileCatalog

/-- Location descriptor: a site plus a path, per the data model in the spec
(the optional archive flag plays no role in any conflict rule). -/
structure Loc where
  site : String
  path : String
  deriving DecidableEq, Repr

/-- File record as stored in the files collection.  Domain metadata fields are
opaque to the core and omitted; the fields here are the ones the conflict and
replica logic reads. -/
structure FileDoc where
  uuid : String
  logical_name : String
  checksum : String
  locations : List Loc
  deriving DecidableEq, Repr

/-- Collection document; query holds the stored filter, embedded as the
predicate it denotes on file documents. -/
structure CollDoc where
  uuid : String
  collection_name : String
  owner : String
  query : FileDoc → Bool

/-- Snapshot document with its frozen list of file uuids. -/
structure SnapDoc where
  uuid : String
  collection_id : String
  owner : String
  files : List String
  deriving DecidableEq, Repr

/-- The three MongoDB collections of the catalog, in natural (insertion) order. -/
structure Store where
  files : List FileDoc
  collections : List CollDoc
  snapshots : List SnapDoc

/- ---------------------------------------------------------------------------
Mongo._limit_results (mongo.py lines 141-163), embedded loop-for-loop:
    end = None
    if limit is not None:
        end = start + limit
    i = 0
    async for row in cursor:
        if i < start:
            continue
        yield row
        if end and i >= end:
            return
        i += 1
Note the loop skips `i += 1` on the `continue` path and tests `end and i >= end`
(which is falsy when end == 0) only after yielding.
--------------------------------------------------------------------------- -/

/-- Truthiness of the Python condition `end and i >= end` for optional end. -/
def endTest (endIdx : Option Nat) (i : Nat) : Bool :=
  match endIdx with
  | none => false
  | some n => n != 0 && decide (i ≥ n)

/-- The row loop of Mongo._limit_results with loop counter i. -/
def limitLoop (endIdx : Option Nat) (start : Nat) : Nat → List α → List α
  | _, [] => []
  | i, row :: rest =>
    if i < start then limitLoop endIdx start i rest
    else if endTest endIdx i then [row]
    else row :: limitLoop endIdx start (i + 1) rest

/-- Mongo._limit_results: materialize the windowed slice of the cursor. -/
def limitResults (docs : List α) (limit : Option Nat) (start : Nat) : List α :=
  limitLoop (limit.map fun l => start + l) start 0 docs

/-- The slice the spec promises: documents[start : min(start+limit, N)], with
the whole tail when limit is absent. -/
def specSlice (docs : List α) (limit : Option Nat) (start : Nat) : List α :=
  match limit with
  | none => docs.drop start
  | some l => (docs.drop start).take l

/- ---------------------------------------------------------------------------
Mongo._get_projection (mongo.py lines 120-139).  Python dicts are embedded as
association lists with unique keys in insertion order; dict assignment
overwrites in place or appends.
--------------------------------------------------------------------------- -/

/-- The keys argument of Mongo._get_projection: a list of field names or the
AllKeys sentinel (the surrounding Option models Python None). -/
inductive KeysArg where
  | list (ks : List String)
  | allKeys
  deriving DecidableEq, Repr

/-- Python truthiness of `not keys` for the keys argument: None and the empty
list are falsy, an AllKeys instance is truthy. -/
def keysFalsy : Option KeysArg → Bool
  | none => true
  | some (KeysArg.list ks) => ks.isEmpty
  | some KeysArg.allKeys => false

/-- Python truthiness of `if default:`: None and the empty dict are falsy. -/
def dictTruthy : Option (List (String × Bool)) → Bool
  | none => false
  | some d => !d.isEmpty

/-- Python dict assignment d[k] = v: overwrite the first (unique) occurrence
of the key, else append. -/
def dictInsert : List (String × Bool) → String → Bool → List (String × Bool)
  | [], k, v => [(k, v)]
  | kv :: rest, k, v =>
    if kv.1 == k then (k, v) :: rest else kv :: dictInsert rest k v

/-- Python dict.update: assign every pair of u into d in order. -/
def dictUpdate (d : List (String × Bool)) (u : List (String × Bool)) :
    List (String × Bool) :=
  u.foldl (fun acc kv => dictInsert acc kv.1 kv.2) d

/-- Lookup of a key in an embedded dict. -/
def projLookup (d : List (String × Bool)) (k : String) : Option Bool :=
  (d.find? fun kv => kv.1 == k).map fun kv => kv.2

/-- Mongo._get_projection: start from the _id exclusion, then merge the default
keys when keys is falsy, nothing for AllKeys, or the requested list. -/
def getProjection (keys : Option KeysArg) (dflt : Option (List (String × Bool))) :
    List (String × Bool) :=
  let projection := [("_id", false)]
  if keysFalsy keys then
    if dictTruthy dflt then dictUpdate projection (dflt.getD []) else projection
  else
    match keys with
    | some KeysArg.allKeys => projection
    | some (KeysArg.list ks) => dictUpdate projection (ks.map fun k => (k, true))
    | none => projection

/-- The default projection keys passed by Mongo.find_files (mongo.py 188-190). -/
def findFilesDefault : List (String × Bool) :=
  [("uuid", true), ("logical_name", true)]

/-- The projection Mongo.find_files builds for a given keys argument. -/
def findFilesProjection (keys : Option KeysArg) : List (String × Bool) :=
  getProjection keys (some findFilesDefault)

/- ---------------------------------------------------------------------------
Store write primitives.
--------------------------------------------------------------------------- -/

/-- Replace the first element satisfying p by g of it (semantics of
update_one / replace_one, which write a single matching document). -/
def setFirst (p : α → Bool) (g : α → α) : List α → List α
  | [] => []
  | a :: as => if p a then g a :: as else a :: setFirst p g as

/-- Remove the first element satisfying p (semantics of delete_one). -/
def eraseFirst (p : α → Bool) : List α → List α
  | [] => []
  | a :: as => if p a then as else a :: eraseFirst p as

/-- MongoDB $addToSet with $each: append each element of xs that is not yet in
the array, preserving order and skipping later duplicates. -/
def addToSetEach (arr : List Loc) (xs : List Loc) : List Loc :=
  xs.foldl (fun a x => if a.contains x then a else a ++ [x]) arr

/-- Mongo.get_file with filter on uuid: first file document with that uuid. -/
def getFileByUuid (s : Store) (uuid : String) : Option FileDoc :=
  s.files.find? fun f => f.uuid == uuid

/-- Mongo.get_file with an elemMatch filter on locations: first file document
one of whose locations equals the given one. -/
def getFileByLocation (s : Store) (loc : Loc) : Option FileDoc :=
  s.files.find? fun f => f.locations.contains loc

/-- The unique-index raise condition for inserting a new file document: a
DuplicateKeyError is raised when the stored files already hold this uuid, this
logical_name, or any of these location values (mongo.py create_indexes,
lines 60-67). -/
def insertFileRaises (s : Store) (md : FileDoc) : Bool :=
  s.files.any fun f =>
    f.uuid == md.uuid || f.logical_name == md.logical_name ||
      f.locations.any fun l => md.locations.contains l

/-- The unique-index raise condition for writing the given location array onto
the file with this uuid: a location value may not appear on any other file. -/
def updateLocationsRaises (s : Store) (uuid : String) (locs : List Loc) : Bool :=
  s.files.any fun f => f.uuid != uuid && f.locations.any fun l => locs.contains l

/-- Mongo.update_file(uuid, {'locations': locs}): set the locations of the
first file with this uuid. -/
def updateFileLocations (s : Store) (uuid : String) (locs : List Loc) : Store :=
  { s with files :=
      setFirst (fun f => f.uuid == uuid) (fun f => { f with locations := locs }) s.files }

/-- Mongo.replace_file: replace the first file with metadata's uuid by
metadata wholesale. -/
def replaceFile (s : Store) (md : FileDoc) : Store :=
  { s with files := setFirst (fun f => f.uuid == md.uuid) (fun _ => md) s.files }

/-- Add the given batch of locations to a file document by set-union. -/
def addLocsTo (locs : List Loc) (f : FileDoc) : FileDoc :=
  { f with locations := addToSetEach f.locations locs }

/-- Mongo.append_distinct_elements_to_file for the locations array:
$addToSet $each on the first file with this uuid. -/
def appendDistinct (s : Store) (uuid : String) (locs : List Loc) : Store :=
  { s with files := (setFirst (fun f => f.uuid == uuid) (addLocsTo locs) s.files) }

/- ---------------------------------------------------------------------------
FilesHandler.post (server.py lines 469-514): create a file or add a replica.
The schema validator and pathfinder.contains_existing_filepaths are outside
src/; their outcomes enter as the booleans validationOk and pathfinderOk.  The
handler assigns a fresh uuid when the body has none, so the embedded metadata
always carries its uuid.
--------------------------------------------------------------------------- -/

/-- Outcome of FilesHandler.post. -/
inductive FilesPostResult where
  /-- 400-level early return from the validator or the filepath pre-check. -/
  | prevalidation
  /-- 409 reason Conflict with existing file (uuid already exists), linking the
  stored record. -/
  | conflictUuidExists (fileUuid : String)
  /-- 409 reason Replica has already been added, linking the stored record. -/
  | conflictReplica (fileUuid : String)
  /-- 200, replica appended to the stored record. -/
  | replicaAdded (uuid : String)
  /-- 201, brand-new record inserted. -/
  | created (uuid : String)
  /-- an exception escaped to the catch_error decorator, which answers with a
  generic message naming only the handler class. -/
  | internalError (msg : String)
  deriving DecidableEq, Repr

/-- FilesHandler.post. -/
def filesPost (s : Store) (md : FileDoc) (validationOk pathfinderOk : Bool) :
    FilesPostResult × Store :=
  if !validationOk then (FilesPostResult.prevalidation, s)
  else if !pathfinderOk then (FilesPostResult.prevalidation, s)
  else
    match getFileByUuid s md.uuid with
    | some dbFile =>
      if dbFile.checksum != md.checksum then
        (FilesPostResult.conflictUuidExists dbFile.uuid, s)
      else if md.locations.any (fun f => dbFile.locations.contains f) then
        (FilesPostResult.conflictReplica dbFile.uuid, s)
      else
        if updateLocationsRaises s dbFile.uuid (dbFile.locations ++ md.locations) then
          (FilesPostResult.internalError "Internal error in FilesHandler", s)
        else
          (FilesPostResult.replicaAdded dbFile.uuid,
            updateFileLocations s dbFile.uuid (dbFile.locations ++ md.locations))
    | none =>
      if insertFileRaises s md then
        (FilesPostResult.internalError "Internal error in FilesHandler", s)
      else
        (FilesPostResult.created md.uuid, { s with files := s.files ++ [md] })

/- ---------------------------------------------------------------------------
SingleFileLocationsHandler.post (server.py lines 686-751): add locations.
--------------------------------------------------------------------------- -/

/-- Outcome of SingleFileLocationsHandler.post. -/
inductive LocationsPostResult where
  /-- 404 File uuid not found. -/
  | notFound
  /-- 409 Conflict with existing file (location already exists), carrying the
  offending location and the other record's uuid. -/
  | conflictLocation (loc : Loc) (otherUuid : String)
  /-- 200, the (possibly updated) record written back. -/
  | ok (doc : FileDoc)
  /-- an exception escaped to the catch_error decorator. -/
  | internalError (msg : String)
  deriving DecidableEq, Repr

/-- The per-location scan of SingleFileLocationsHandler.post: look the location
up by elemMatch; on a hit with another uuid abort with that location and uuid;
on a hit with this uuid skip it; on a miss accumulate it as new. -/
def scanLocations (s : Store) (uuid : String) : List Loc → Except (Loc × String) (List Loc)
  | [] => Except.ok []
  | loc :: rest =>
    match getFileByLocation s loc with
    | some check =>
      if check.uuid != uuid then Except.error (loc, check.uuid)
      else scanLocations s uuid rest
    | none => (scanLocations s uuid rest).map fun ns => loc :: ns

/-- SingleFileLocationsHandler.post: resolve the record, scan the whole batch,
then commit the vetted new locations in one $addToSet write and re-read. -/
def locationsPost (s : Store) (uuid : String) (locs : List Loc) :
    LocationsPostResult × Store :=
  match getFileByUuid s uuid with
  | none => (LocationsPostResult.notFound, s)
  | some dbFile =>
    match scanLocations s uuid locs with
    | Except.error (loc, otherUuid) =>
      (LocationsPostResult.conflictLocation loc otherUuid, s)
    | Except.ok newLocations =>
      if newLocations.isEmpty then (LocationsPostResult.ok dbFile, s)
      else if updateLocationsRaises s uuid newLocations then
        (LocationsPostResult.internalError
          "Internal error in SingleFileLocationsHandler", s)
      else
        let s2 := appendDistinct s uuid newLocations
        match getFileByUuid s2 uuid with
        | some dbFile2 => (LocationsPostResult.ok dbFile2, s2)
        | none =>
          (LocationsPostResult.internalError
            "Internal error in SingleFileLocationsHandler", s2)

/- ---------------------------------------------------------------------------
SingleFileHandler.put / patch / delete (server.py lines 568-669).
--------------------------------------------------------------------------- -/

/-- Outcome of SingleFileHandler.put. -/
inductive PutResult where
  /-- 404 File uuid not found. -/
  | notFound
  /-- 400-level early return from one of the pre-checks. -/
  | prevalidation
  /-- 200, the replacing document written back. -/
  | ok (doc : FileDoc)
  deriving DecidableEq, Repr

/-- SingleFileHandler.put: resolve the record; run the forbidden-attributes
check, the filepath pre-check, then force metadata uuid to the path uuid, run
the modification validator, and replace the stored document.  The three
external checks enter as booleans in the order the handler runs them. -/
def singleFilePut (s : Store) (uuid : String) (body : FileDoc)
    (forbiddenOk pathfinderOk validationOk : Bool) : PutResult × Store :=
  match getFileByUuid s uuid with
  | none => (PutResult.notFound, s)
  | some _ =>
    if !forbiddenOk then (PutResult.prevalidation, s)
    else if !pathfinderOk then (PutResult.prevalidation, s)
    else
      let md := { body with uuid := uuid }
      if !validationOk then (PutResult.prevalidation, s)
      else (PutResult.ok md, replaceFile s md)

/-- The partial metadata of a PATCH body: fields absent from the body are not
touched by the $set update. -/
structure PartialMeta where
  logical_name : Option String := none
  checksum : Option String := none
  locations : Option (List Loc) := none
  deriving DecidableEq, Repr

/-- Apply a $set of the given partial metadata to a stored document. -/
def applySet (f : FileDoc) (m : PartialMeta) : FileDoc :=
  { uuid := f.uuid
    logical_name := m.logical_name.getD f.logical_name
    checksum := m.checksum.getD f.checksum
    locations := m.locations.getD f.locations }

/-- Outcome of SingleFileHandler.patch. -/
inductive PatchResult where
  /-- 404 File uuid not found. -/
  | notFound
  /-- 400-level early return from one of the pre-checks. -/
  | prevalidation
  /-- 200, the merged document written back. -/
  | ok (doc : FileDoc)
  deriving DecidableEq, Repr

/-- SingleFileHandler.patch: resolve, pre-check, merge-update the stored
document with the partial payload. -/
def singleFilePatch (s : Store) (uuid : String) (m : PartialMeta)
    (forbiddenOk pathfinderOk validationOk : Bool) : PatchResult × Store :=
  match getFileByUuid s uuid with
  | none => (PatchResult.notFound, s)
  | some dbFile =>
    if !forbiddenOk then (PatchResult.prevalidation, s)
    else if !pathfinderOk then (PatchResult.prevalidation, s)
    else if !validationOk then (PatchResult.prevalidation, s)
    else
      (PatchResult.ok (applySet dbFile m),
        { s with files :=
            (setFirst (fun f => f.uuid == uuid) (fun f => applySet f m) s.files) })

/-- Outcome of SingleFileHandler.delete. -/
inductive DeleteResult where
  /-- 204 No Content. -/
  | noContent
  /-- 404 File uuid not found (delete_one deleted zero documents). -/
  | notFound
  deriving DecidableEq, Repr

/-- SingleFileHandler.delete: delete_one on uuid; zero deletions surface as
404. -/
def singleFileDelete (s : Store) (uuid : String) : DeleteResult × Store :=
  if s.files.any (fun f => f.uuid == uuid) then
    (DeleteResult.noContent,
      { s with files := eraseFirst (fun f => f.uuid == uuid) s.files })
  else (DeleteResult.notFound, s)

/- ---------------------------------------------------------------------------
Collections and snapshots (server.py lines 799-1000 and mongo.py 268-354).
--------------------------------------------------------------------------- -/

/-- Outcome of CollectionsHandler.post. -/
inductive CollPostResult where
  /-- 409 Conflict with existing collection (uuid already exists). -/
  | conflict (uuid : String)
  /-- 201 created. -/
  | created (uuid : String)
  deriving DecidableEq, Repr

/-- CollectionsHandler.post: reject a duplicate collection uuid, else insert. -/
def collectionsPost (s : Store) (md : CollDoc) : CollPostResult × Store :=
  match s.collections.find? (fun c => c.uuid == md.uuid) with
  | some r => (CollPostResult.conflict r.uuid, s)
  | none => (CollPostResult.created md.uuid,
      { s with collections := s.collections ++ [md] })

/-- The collection resolution shared by the single-collection handlers: by
uuid first, then by collection_name. -/
def getCollection (s : Store) (uid : String) : Option CollDoc :=
  match s.collections.find? (fun c => c.uuid == uid) with
  | some c => some c
  | none => s.collections.find? fun c => c.collection_name == uid

/-- The POST body of SingleCollectionSnapshotsHandler: an optional
client-chosen uuid and an optional owner override. -/
structure SnapBody where
  uuid : Option String := none
  owner : Option String := none
  deriving DecidableEq, Repr

/-- Outcome of SingleCollectionSnapshotsHandler.post. -/
inductive SnapPostResult where
  /-- 400 Cannot find collection. -/
  | cannotFindCollection
  /-- 409 Conflict with existing snapshot (uuid already exists). -/
  | conflict
  /-- 201 created, carrying the new snapshot document. -/
  | created (doc : SnapDoc)
  deriving DecidableEq, Repr

/-- SingleCollectionSnapshotsHandler.post: resolve the collection by uuid then
name, then store `collection_id := uid` -- the raw path segment, exactly as
server.py line 969 does -- default the owner from the collection, take the
client uuid or the freshly generated one (uuid1(), entering as genUuid),
reject a duplicate snapshot uuid, capture the uuids of the files currently
matching the collection's query (find_files with keys=['uuid'] and no
limit/start), and insert the snapshot. -/
def snapshotsPost (s : Store) (uid : String) (body : SnapBody) (genUuid : String) :
    SnapPostResult × Store :=
  match getCollection s uid with
  | none => (SnapPostResult.cannotFindCollection, s)
  | some ret =>
    let muuid := body.uuid.getD genUuid
    let owner := body.owner.getD ret.owner
    match s.snapshots.find? (fun sn => sn.uuid == muuid) with
    | some _ => (SnapPostResult.conflict, s)
    | none =>
      let captured := (limitResults (s.files.filter ret.query) none 0).map
        fun f => f.uuid
      let doc : SnapDoc :=
        { uuid := muuid, collection_id := uid, owner := owner, files := captured }
      (SnapPostResult.created doc, { s with snapshots := s.snapshots ++ [doc] })

/-- SingleCollectionSnapshotsHandler.get: resolve the collection, then list the
snapshots whose collection_id equals the resolved collection's uuid (server.py
line 932); none when the collection cannot be found.  Without query parameters
the argbuilder defaults apply: no limit, start 0, all keys. -/
def collectionSnapshotsGet (s : Store) (uid : String) : Option (List SnapDoc) :=
  match getCollection s uid with
  | none => none
  | some ret =>
    some (limitResults (s.snapshots.filter fun sn => sn.collection_id == ret.uuid) none 0)

/-- SingleSnapshotHandler.get: direct lookup of the snapshot document. -/
def singleSnapshotGet (s : Store) (uid : String) : Option SnapDoc :=
  s.snapshots.find? fun sn => sn.uuid == uid

/- ---------------------------------------------------------------------------
The operations of the core as a single step relation over the store, used to
state store-wide invariants such as snapshot immutability.
--------------------------------------------------------------------------- -/

/-- One mutating operation of the core, carrying the request payload and the
outcomes of the external pre-checks where the handler consults them. -/
inductive Op where
  | createFile (md : FileDoc) (validationOk pathfinderOk : Bool)
  | patchFile (uuid : String) (m : PartialMeta) (forbiddenOk pathfinderOk validationOk : Bool)
  | putFile (uuid : String) (body : FileDoc) (forbiddenOk pathfinderOk validationOk : Bool)
  | deleteFile (uuid : String)
  | addLocations (uuid : String) (locs : List Loc)
  | createCollection (md : CollDoc)
  | createSnapshot (uid : String) (body : SnapBody) (genUuid : String)

/-- The store reached after serving one operation. -/
def stepOp (s : Store) : Op → Store
  | Op.createFile md v p => (filesPost s md v p).2
  | Op.patchFile uuid m f p v => (singleFilePatch s uuid m f p v).2
  | Op.putFile uuid body f p v => (singleFilePut s uuid body f p v).2
  | Op.deleteFile uuid => (singleFileDelete s uuid).2
  | Op.addLocations uuid locs => (locationsPost s uuid locs).2
  | Op.createCollection md => (collectionsPost s md).2
  | Op.createSnapshot uid body gen => (snapshotsPost s uid body gen).2

/- ---------------------------------------------------------------------------
Concrete fixtures used by the witnesses and counterexamples below.
--------------------------------------------------------------------------- -/

/-- Example location 1. -/
def loc1 : Loc := { site := "WIPAC", path := "/data/a" }

/-- Example location 2. -/
def loc2 : Loc := { site := "WIPAC", path := "/data/b" }

/-- Example location 3. -/
def loc3 : Loc := { site := "NERSC", path := "/tape/c" }

/-- Example location 4. -/
def loc4 : Loc := { site := "NERSC", path := "/tape/d" }

/-- Example stored file holding location 1. -/
def fileU1 : FileDoc :=
  { uuid := "u1", logical_name := "ln1", checksum := "sha1", locations := [loc1] }

/-- Example stored file holding location 3. -/
def fileU2 : FileDoc :=
  { uuid := "u2", logical_name := "ln2", checksum := "sha2", locations := [loc3] }

/-- Example store with two files and no collections or snapshots. -/
def exStore : Store := { files := [fileU1, fileU2], collections := [], snapshots := [] }

/-- Example collection over checksum sha-q, addressable as u-col or name-col. -/
def exColl : CollDoc :=
  { uuid := "u-col", collection_name := "name-col", owner := "alice",
    query := fun f => f.checksum == "sha-q" }

/-- File A of the snapshot scenario, matching the example collection query. -/
def fileA : FileDoc :=
  { uuid := "A", logical_name := "lnA", checksum := "sha-q", locations := [loc1] }

/-- File B of the snapshot scenario, matching the example collection query. -/
def fileB : FileDoc :=
  { uuid := "B", logical_name := "lnB", checksum := "sha-q", locations := [loc2] }

/-- File C of the snapshot scenario, also matching the query but created only
after the snapshot. -/
def fileC : FileDoc :=
  { uuid := "C", logical_name := "lnC", checksum := "sha-q", locations := [loc3] }

/-- Initial store of the snapshot scenario: files A and B and the example
collection, no snapshots. -/
def snapStore0 : Store :=
  { files := [fileA, fileB], collections := [exColl], snapshots := [] }

/-- Store after creating the snapshot of the collection (addressed by its
uuid) at a time when the query matches exactly A and B. -/
def snapStore1 : Store :=
  (snapshotsPost snapStore0 "u-col" { uuid := some "snap1" } "gen-uuid").2

/-- Store after then deleting file B. -/
def snapStore2 : Store := (singleFileDelete snapStore1 "B").2

/-- Store after then creating file C, which also matches the query. -/
def snapStore3 : Store := (filesPost snapStore2 fileC true true).2

/-- Store after creating a snapshot of the example collection addressed by its
collection_name rather than its uuid. -/
def byNameStore : Store :=
  (snapshotsPost snapStore0 "name-col" { uuid := some "snapX" } "gen").2

/-- The catalog invariant backed by the unique index on files.locations: no
location value is claimed by two distinct stored file documents. -/
def LocUnique (files : List FileDoc) : Prop :=
  ∀ f g, f ∈ files → g ∈ files → f ≠ g → ∀ l, l ∈ f.locations → l ∉ g.locations

/-- Create metadata reusing uuid u1 with its stored checksum, one stored
location and one genuinely new location. -/
def mdOverlap : FileDoc :=
  { uuid := "u1", logical_name := "ln1", checksum := "sha1", locations := [loc1, loc2] }

/-- Create metadata reusing uuid u1 with its stored checksum and a genuinely
new location listed twice. -/
def mdDup : FileDoc :=
  { uuid := "u1", logical_name := "ln1", checksum := "sha1", locations := [loc2, loc2] }

/-- Create metadata with a fresh uuid but a logical_name colliding with the
stored file u1, the situation of a lost check-then-act race. -/
def mdDupKey : FileDoc :=
  { uuid := "fresh", logical_name := "ln1", checksum := "sha9", locations := [loc4] }

/- ---------------------------------------------------------------------------
Helper lemmas.
--------------------------------------------------------------------------- -/

theorem setFirst_replace_map_uuid (u : String) (md : FileDoc) (hmd : md.uuid = u) :
    ∀ l : List FileDoc,
      ((setFirst (fun f => f.uuid == u) (fun _ => md) l).map fun f => f.uuid) =
        l.map fun f => f.uuid := by
  intro l
  induction l with
  | nil => rfl
  | cons a as ih =>
    by_cases h : (a.uuid == u) = true
    · simp [setFirst, h, hmd]
      exact (eq_of_beq h).symm
    · simp [setFirst, h, ih]

theorem findUuid_setFirst_setLocs (uuid : String) (locs : List Loc) :
    ∀ (files : List FileDoc) (f0 : FileDoc),
      files.find? (fun f => f.uuid == uuid) = some f0 →
      (setFirst (fun f => f.uuid == uuid) (fun f => { f with locations := locs })
          files).find? (fun f => f.uuid == uuid) = some { f0 with locations := locs } := by
  intro files
  induction files with
  | nil =>
    intro f0 h
    simp at h
  | cons a as ih =>
    intro f0 h
    by_cases hp : (a.uuid == uuid) = true
    · rw [List.find?_cons_of_pos (p := fun f : FileDoc => f.uuid == uuid) _ hp] at h
      injection h with h
      subst h
      simp only [setFirst, hp, if_true]
      exact List.find?_cons_of_pos _ hp
    · have hp' : (a.uuid == uuid) = false := by simpa using hp
      rw [List.find?_cons_of_neg (p := fun f : FileDoc => f.uuid == uuid) _ hp] at h
      simp only [setFirst, hp', Bool.false_eq_true, if_false]
      rw [List.find?_cons_of_neg (p := fun f : FileDoc => f.uuid == uuid) _ hp]
      exact ih f0 h

theorem projLookup_dictInsert (d : List (String × Bool)) (k : String) (v : Bool)
    (k2 : String) :
    projLookup (dictInsert d k v) k2 = if k2 = k then some v else projLookup d k2 := by
  induction d with
  | nil =>
    by_cases h : k2 = k
    · subst h
      simp [dictInsert, projLookup]
    · have hne : (k == k2) = false := beq_eq_false_iff_ne.mpr fun hc => h hc.symm
      simp [dictInsert, projLookup, hne, h]
  | cons kv rest ih =>
    by_cases hk : kv.1 == k
    · have hk' : kv.1 = k := eq_of_beq hk
      by_cases h2 : k2 = k
      · subst h2
        simp [dictInsert, hk, projLookup]
      · have hkk2 : (k == k2) = false := beq_eq_false_iff_ne.mpr fun hc => h2 hc.symm
        have hkvk2 : (kv.1 == k2) = false := by rw [hk']; exact hkk2
        simp [dictInsert, hk, projLookup, hkk2, hkvk2, h2]
    · by_cases h2 : kv.1 == k2
      · have hne : k2 ≠ k := by
          intro hc
          rw [hc] at h2
          exact hk h2
        simp [dictInsert, hk, projLookup, h2, hne]
      · have h2' : (kv.1 == k2) = false := by simpa using h2
        simp only [dictInsert, hk, Bool.false_eq_true, if_false]
        simp only [projLookup, List.find?, h2'] at ih ⊢
        exact ih

theorem projLookup_update_const (ks : List String) (k : String) :
    ∀ d : List (String × Bool),
      projLookup (dictUpdate d (ks.map fun k0 => (k0, true))) k =
        if k ∈ ks then some true else projLookup d k := by
  induction ks with
  | nil => intro d; simp [dictUpdate]
  | cons k1 rest ih =>
    intro d
    have step : dictUpdate d ((k1 :: rest).map fun k0 => (k0, true)) =
        dictUpdate (dictInsert d k1 true) (rest.map fun k0 => (k0, true)) := rfl
    rw [step, ih, projLookup_dictInsert]
    by_cases h1 : k ∈ rest
    · simp [h1, List.mem_cons]
    · by_cases h2 : k = k1
      · simp [h1, h2]
      · simp [h1, h2, List.mem_cons]

/- ---------------------------------------------------------------------------
C1.  Pagination.
--------------------------------------------------------------------------- -/

/-- C1: the pagination helper is claimed to return exactly the contiguous
slice documents[s : min(s+l, N)].  The code disagrees: because the skip branch
never increments the counter, any positive start yields the empty list, and
with start = 0 the post-yield bound check lets limit+1 documents through.
Evaluating the loop at three documents, start 1 and limit 1 (and at start 0,
limit 1) exhibits both divergences from the specified slice. -/
theorem c1_limit_results_not_slice :
    limitResults ([10, 20, 30] : List Nat) (some 1) 1 = [] ∧
    specSlice ([10, 20, 30] : List Nat) (some 1) 1 = [20] ∧
    limitResults ([10, 20, 30] : List Nat) (some 1) 0 = [10, 20] ∧
    specSlice ([10, 20, 30] : List Nat) (some 1) 0 = [10] := by
  refine ⟨rfl, rfl, rfl, rfl⟩

/- ---------------------------------------------------------------------------
C3.  Create with existing uuid and different checksum.
--------------------------------------------------------------------------- -/

/-- C3: a Create whose uuid already exists with a different checksum fails
with the 409 Conflict referencing the stored record's uuid, and the store is
left unchanged, whatever the incoming locations are. -/
theorem c3_create_checksum_conflict (s : Store) (md : FileDoc) (dbFile : FileDoc)
    (hfind : getFileByUuid s md.uuid = some dbFile)
    (hck : dbFile.checksum ≠ md.checksum) :
    filesPost s md true true = (FilesPostResult.conflictUuidExists dbFile.uuid, s) := by
  have hbne : (dbFile.checksum != md.checksum) = true := by
    simp [bne_iff_ne, hck]
  simp [filesPost, hfind, hbne]

/-- Witness for C3 at a concrete store: creating with uuid u1 and a checksum
other than the stored sha1 is rejected with the stored record's uuid. -/
theorem c3_create_checksum_conflict_witness :
    filesPost exStore
        { uuid := "u1", logical_name := "ln1", checksum := "DIFF", locations := [loc2] }
        true true =
      (FilesPostResult.conflictUuidExists fileU1.uuid, exStore) :=
  c3_create_checksum_conflict exStore
    { uuid := "u1", logical_name := "ln1", checksum := "DIFF", locations := [loc2] }
    fileU1 (by rfl) (by decide)

/- ---------------------------------------------------------------------------
C9.  Projection building.
--------------------------------------------------------------------------- -/

/-- Counterexample to C9 as stated: requesting the field list ["_id"] yields a
projection that includes _id (the claim says _id is always excluded), and
requesting the empty field list yields the find_files default projection
rather than exactly the requested (empty) field list. -/
theorem c9_projection_counterexample :
    projLookup (findFilesProjection (some (KeysArg.list ["_id"]))) "_id" = some true ∧
    findFilesProjection (some (KeysArg.list [])) ≠ [("_id", false)] := by
  exact ⟨rfl, by decide⟩

/-- C9 amended: the projection excludes _id unless _id itself is requested; a
nonempty requested list avoiding _id yields exactly those fields beside the
_id exclusion; an empty requested list is treated like absent keys and falls
back to the default set; AllKeys yields only the _id exclusion; and find_files
with no keys defaults to exactly uuid and logical_name. -/
theorem c9_projection_amended :
    (∀ (ks : List String) (dflt : Option (List (String × Bool))) (k : String),
      ks ≠ [] → "_id" ∉ ks →
        projLookup (getProjection (some (KeysArg.list ks)) dflt) k =
          if k = "_id" then some false else if k ∈ ks then some true else none) ∧
    (∀ dflt, getProjection (some (KeysArg.list [])) dflt = getProjection none dflt) ∧
    (∀ dflt, getProjection (some KeysArg.allKeys) dflt = [("_id", false)]) ∧
    findFilesProjection none = [("_id", false), ("uuid", true), ("logical_name", true)] := by
  refine ⟨?_, fun _ => rfl, fun _ => rfl, rfl⟩
  intro ks dflt k hne hid
  have hfal : keysFalsy (some (KeysArg.list ks)) = false := by
    cases ks with
    | nil => exact absurd rfl hne
    | cons a as => rfl
  have hred : getProjection (some (KeysArg.list ks)) dflt =
      dictUpdate [("_id", false)] (ks.map fun k0 => (k0, true)) := by
    simp [getProjection, hfal]
  rw [hred, projLookup_update_const]
  by_cases hk : k ∈ ks
  · have hk2 : ¬k = "_id" := fun hc => hid (hc ▸ hk)
    simp [hk, hk2]
  · by_cases hk2 : k = "_id"
    · subst hk2
      simp [hk, projLookup]
    · have hb : ("_id" == k) = false := beq_eq_false_iff_ne.mpr fun hc => hk2 hc.symm
      simp [hk, hk2, projLookup, hb]

/-- Witness for the amended C9: requesting exactly ["uuid"] projects uuid in
and keeps _id out. -/
theorem c9_projection_amended_witness :
    projLookup (getProjection (some (KeysArg.list ["uuid"])) (some findFilesDefault)) "uuid" =
      some true ∧
    projLookup (getProjection (some (KeysArg.list ["uuid"])) (some findFilesDefault)) "_id" =
      some false := by
  have h1 := c9_projection_amended.1 ["uuid"] (some findFilesDefault) "uuid"
    (by decide) (by decide)
  have h2 := c9_projection_amended.1 ["uuid"] (some findFilesDefault) "_id"
    (by decide) (by decide)
  constructor
  · simpa using h1
  · simpa using h2

/- ---------------------------------------------------------------------------
C10.  Replace forces the path uuid.
--------------------------------------------------------------------------- -/

/-- C10: a Replace that reaches the persistence step writes the document with
the uuid taken from the request path, whatever uuid the body carried, and the
stored uuids are unchanged, so Replace can never change a record's id. -/
theorem c10_put_forces_path_uuid (s : Store) (uuid : String) (body : FileDoc)
    (f0 : FileDoc) (hfind : getFileByUuid s uuid = some f0) :
    singleFilePut s uuid body true true true =
      (PutResult.ok { body with uuid := uuid }, replaceFile s { body with uuid := uuid }) ∧
    ({ body with uuid := uuid } : FileDoc).uuid = uuid ∧
    (((singleFilePut s uuid body true true true).2).files.map fun f => f.uuid) =
      s.files.map fun f => f.uuid := by
  have h1 : singleFilePut s uuid body true true true =
      (PutResult.ok { body with uuid := uuid }, replaceFile s { body with uuid := uuid }) := by
    simp [singleFilePut, hfind]
  refine ⟨h1, rfl, ?_⟩
  rw [h1]
  simp only [replaceFile]
  exact setFirst_replace_map_uuid uuid _ rfl s.files

/-- Witness for C10: replacing u1 with a body claiming uuid EVIL stores the
record under u1 and leaves the catalog's uuids as they were. -/
theorem c10_put_forces_path_uuid_witness :
    (((singleFilePut exStore "u1"
        { uuid := "EVIL", logical_name := "ln9", checksum := "c9", locations := [loc4] }
        true true true).2).files.map fun f => f.uuid) = ["u1", "u2"] := by
  have h := c10_put_forces_path_uuid exStore "u1"
    { uuid := "EVIL", logical_name := "ln9", checksum := "c9", locations := [loc4] }
    fileU1 (by rfl)
  rw [h.2.2]
  rfl

/- ---------------------------------------------------------------------------
C2.  Create as replica merge.
--------------------------------------------------------------------------- -/

/-- Counterexample to C2 as stated: with uuid u1 stored with checksum sha1 and
location loc1, a Create carrying one stored and one genuinely new location is
rejected as a replica conflict instead of succeeding, and a Create listing a
new location twice stores that location twice instead of deduplicating. -/
theorem c2_replica_merge_counterexample :
    (filesPost exStore mdOverlap true true).1 = FilesPostResult.conflictReplica "u1" ∧
    (filesPost exStore mdDup true true).1 = FilesPostResult.replicaAdded "u1" ∧
    getFileByUuid ((filesPost exStore mdDup true true).2) "u1" =
      some { uuid := "u1", logical_name := "ln1", checksum := "sha1",
             locations := [loc1, loc2, loc2] } := by
  exact ⟨rfl, rfl, rfl⟩

/-- C2 amended: on a Create whose uuid exists with an equal checksum, any
overlap between incoming and stored locations yields the replica conflict;
when there is no overlap (and the location index does not fire) the request
succeeds as replica-added and the stored record's location list becomes the
old list with the incoming list appended as given, duplicates included. -/
theorem c2_replica_merge_amended (s : Store) (md : FileDoc) (dbFile : FileDoc)
    (hfind : getFileByUuid s md.uuid = some dbFile)
    (hck : dbFile.checksum = md.checksum) :
    ((md.locations.any fun l => dbFile.locations.contains l) = true →
      filesPost s md true true = (FilesPostResult.conflictReplica dbFile.uuid, s)) ∧
    ((md.locations.any fun l => dbFile.locations.contains l) = false →
     updateLocationsRaises s dbFile.uuid (dbFile.locations ++ md.locations) = false →
      filesPost s md true true =
        (FilesPostResult.replicaAdded dbFile.uuid,
          updateFileLocations s dbFile.uuid (dbFile.locations ++ md.locations)) ∧
      getFileByUuid ((filesPost s md true true).2) md.uuid =
        some { dbFile with locations := dbFile.locations ++ md.locations }) := by
  have hb : (dbFile.checksum != md.checksum) = false := by
    simp [bne_iff_ne, hck]
  have huu : dbFile.uuid = md.uuid := by
    have h := List.find?_some hfind
    exact eq_of_beq h
  constructor
  · intro hov
    simp only [filesPost, Bool.not_true, Bool.false_eq_true, if_false, hfind, hb, hov,
      if_true]
  · intro hov hr
    have heq : filesPost s md true true =
        (FilesPostResult.replicaAdded dbFile.uuid,
          updateFileLocations s dbFile.uuid (dbFile.locations ++ md.locations)) := by
      simp only [filesPost, Bool.not_true, Bool.false_eq_true, if_false, hfind, hb, hov,
        hr, if_true]
    refine ⟨heq, ?_⟩
    rw [heq]
    have hl := findUuid_setFirst_setLocs md.uuid (dbFile.locations ++ md.locations)
      s.files dbFile hfind
    rw [huu] at hl
    simp only [getFileByUuid, updateFileLocations]
    rw [huu]
    exact hl

/-- Witness for the amended C2: adding the genuinely new location loc2 to u1
succeeds and appends it to the stored list. -/
theorem c2_replica_merge_amended_witness :
    filesPost exStore
        { uuid := "u1", logical_name := "ln1", checksum := "sha1", locations := [loc2] }
        true true =
      (FilesPostResult.replicaAdded "u1", updateFileLocations exStore "u1" [loc1, loc2]) :=
  ((c2_replica_merge_amended exStore
      { uuid := "u1", logical_name := "ln1", checksum := "sha1", locations := [loc2] }
      fileU1 (by rfl) (by rfl)).2 (by decide) (by decide)).1

/- ---------------------------------------------------------------------------
C8.  Store-level duplicate-key failures.
--------------------------------------------------------------------------- -/

/-- Counterexample to C8 as stated: an insert that passes the uuid pre-check
but violates the logical_name uniqueness index surfaces through catch_error as
the generic internal failure of the handler class, which is not the Conflict
shape either pre-check produces. -/
theorem c8_dupkey_counterexample :
    filesPost exStore mdDupKey true true =
      (FilesPostResult.internalError "Internal error in FilesHandler", exStore) ∧
    (filesPost exStore mdDupKey true true).1 ≠ FilesPostResult.conflictUuidExists "u1" ∧
    (filesPost exStore mdDupKey true true).1 ≠ FilesPostResult.conflictReplica "u1" := by
  exact ⟨rfl, by decide, by decide⟩

/-- C8 amended: whenever the insert of a fresh uuid raises a duplicate-key
failure at the store, the outcome is the blanket generic internal error, never
one of the Conflict outcomes the pre-checks produce, so the two failure shapes
are distinguishable by the caller. -/
theorem c8_dupkey_internal_not_conflict (s : Store) (md : FileDoc)
    (hfind : getFileByUuid s md.uuid = none)
    (hdup : insertFileRaises s md = true) :
    filesPost s md true true =
      (FilesPostResult.internalError "Internal error in FilesHandler", s) ∧
    ∀ u, (filesPost s md true true).1 ≠ FilesPostResult.conflictUuidExists u ∧
      (filesPost s md true true).1 ≠ FilesPostResult.conflictReplica u := by
  have h1 : filesPost s md true true =
      (FilesPostResult.internalError "Internal error in FilesHandler", s) := by
    simp [filesPost, hfind, hdup]
  refine ⟨h1, fun u => ⟨?_, ?_⟩⟩
  · rw [h1]
    simp
  · rw [h1]
    simp

/-- Witness for the amended C8 at the concrete race store. -/
theorem c8_dupkey_internal_witness :
    filesPost exStore mdDupKey true true =
      (FilesPostResult.internalError "Internal error in FilesHandler", exStore) :=
  (c8_dupkey_internal_not_conflict exStore mdDupKey (by rfl) (by rfl)).1

/- ---------------------------------------------------------------------------
C7.  Snapshot collection_id.
--------------------------------------------------------------------------- -/

/-- C7: the claim says a snapshot created through a collection identifier
stores the resolved collection's uuid as collection_id.  The handler instead
stores the raw path segment: creating a snapshot of the example collection
addressed by its collection_name stores collection_id name-col, not the
resolved uuid u-col, and the snapshot listing of that same collection (which
filters on the resolved uuid) comes back empty under either address. -/
theorem c7_snapshot_collection_id_bug :
    byNameStore.snapshots =
      [{ uuid := "snapX", collection_id := "name-col", owner := "alice",
         files := ["A", "B"] }] ∧
    exColl.uuid = "u-col" ∧
    ("name-col" : String) ≠ "u-col" ∧
    collectionSnapshotsGet byNameStore "name-col" = some [] ∧
    collectionSnapshotsGet byNameStore "u-col" = some [] := by
  exact ⟨rfl, rfl, by decide, rfl, rfl⟩

/- ---------------------------------------------------------------------------
Lemmas on the location scan and the $addToSet commit, for C4 and C5.
--------------------------------------------------------------------------- -/

theorem mem_addToSetEach_left (x : Loc) :
    ∀ (xs arr : List Loc), x ∈ arr → x ∈ addToSetEach arr xs := by
  intro xs
  induction xs with
  | nil => intro arr h; exact h
  | cons y ys ih =>
    intro arr h
    have step : addToSetEach arr (y :: ys) =
        addToSetEach (if arr.contains y then arr else arr ++ [y]) ys := rfl
    rw [step]
    by_cases hc : arr.contains y = true
    · rw [if_pos hc]
      exact ih arr h
    · rw [if_neg hc]
      exact ih _ (List.mem_append_left _ h)

theorem mem_addToSetEach_right (x : Loc) :
    ∀ (xs arr : List Loc), x ∈ xs → x ∈ addToSetEach arr xs := by
  intro xs
  induction xs with
  | nil =>
    intro arr h
    simp at h
  | cons y ys ih =>
    intro arr h
    have step : addToSetEach arr (y :: ys) =
        addToSetEach (if arr.contains y then arr else arr ++ [y]) ys := rfl
    rw [step]
    rcases List.mem_cons.mp h with rfl | h2
    · by_cases hc : arr.contains x = true
      · rw [if_pos hc]
        exact mem_addToSetEach_left x ys arr (by simpa using hc)
      · rw [if_neg hc]
        exact mem_addToSetEach_left x ys _
          (List.mem_append_right _ (List.mem_singleton.mpr rfl))
    · by_cases hc : arr.contains y = true
      · rw [if_pos hc]
        exact ih arr h2
      · rw [if_neg hc]
        exact ih _ h2

theorem scan_error_props (s : Store) (uuid : String) :
    ∀ (locs : List Loc) (l : Loc) (u : String),
      scanLocations s uuid locs = Except.error (l, u) →
      l ∈ locs ∧ u ≠ uuid ∧ ∃ hf, hf ∈ s.files ∧ hf.uuid = u ∧ l ∈ hf.locations := by
  intro locs
  induction locs with
  | nil =>
    intro l u h
    simp [scanLocations] at h
  | cons loc rest ih =>
    intro l u h
    simp only [scanLocations] at h
    cases hfl : getFileByLocation s loc with
    | some check =>
      simp only [hfl] at h
      by_cases hc : (check.uuid != uuid) = true
      · rw [if_pos hc] at h
        injection h with h
        have hl : loc = l := congrArg Prod.fst h
        have hu : check.uuid = u := congrArg Prod.snd h
        subst hl
        subst hu
        refine ⟨List.mem_cons_self _ _, bne_iff_ne.mp hc, check, ?_, rfl, ?_⟩
        · exact List.mem_of_find?_eq_some hfl
        · have hp := List.find?_some hfl
          simpa using hp
      · rw [if_neg hc] at h
        obtain ⟨h1, h2, h3⟩ := ih l u h
        exact ⟨List.mem_cons_of_mem _ h1, h2, h3⟩
    | none =>
      simp only [hfl] at h
      cases hrest : scanLocations s uuid rest with
      | error e =>
        rw [hrest] at h
        simp only [Except.map] at h
        injection h with h
        obtain ⟨h1, h2, h3⟩ := ih l u (by rw [hrest, h])
        exact ⟨List.mem_cons_of_mem _ h1, h2, h3⟩
      | ok ns0 =>
        rw [hrest] at h
        simp [Except.map] at h

theorem scan_ok_mem (s : Store) (uuid : String) :
    ∀ (locs : List Loc) (ns : List Loc),
      scanLocations s uuid locs = Except.ok ns →
      ∀ loc ∈ locs,
        (getFileByLocation s loc = none ∧ loc ∈ ns) ∨
        (∃ check, getFileByLocation s loc = some check ∧ check.uuid = uuid) := by
  intro locs
  induction locs with
  | nil =>
    intro ns h loc hm
    simp at hm
  | cons loc0 rest ih =>
    intro ns h loc hm
    simp only [scanLocations] at h
    cases hfl : getFileByLocation s loc0 with
    | some check =>
      simp only [hfl] at h
      by_cases hc : (check.uuid != uuid) = true
      · rw [if_pos hc] at h
        cases h
      · rw [if_neg hc] at h
        rcases List.mem_cons.mp hm with rfl | hm2
        · right
          exact ⟨check, hfl, by simpa [bne_iff_ne] using hc⟩
        · exact ih ns h loc hm2
    | none =>
      simp only [hfl] at h
      cases hrest : scanLocations s uuid rest with
      | error e =>
        rw [hrest] at h
        simp [Except.map] at h
      | ok ns0 =>
        rw [hrest] at h
        simp only [Except.map] at h
        injection h with h
        rcases List.mem_cons.mp hm with rfl | hm2
        · left
          exact ⟨hfl, by rw [← h]; exact List.mem_cons_self _ _⟩
        · rcases ih ns0 hrest loc hm2 with ⟨h1, h2⟩ | hx
          · left
            exact ⟨h1, by rw [← h]; exact List.mem_cons_of_mem _ h2⟩
          · right
            exact hx

theorem scan_all_same_ok (t : Store) (uuid : String) :
    ∀ locs : List Loc,
      (∀ loc ∈ locs, ∃ c, getFileByLocation t loc = some c ∧ c.uuid = uuid) →
      scanLocations t uuid locs = Except.ok [] := by
  intro locs
  induction locs with
  | nil => intro _; rfl
  | cons loc rest ih =>
    intro h
    obtain ⟨c, hc, hcu⟩ := h loc (List.mem_cons_self _ _)
    have hb : (c.uuid != uuid) = false := by simp [bne_iff_ne, hcu]
    simp only [scanLocations, hc, hb, Bool.false_eq_true, if_false]
    exact ih fun l hl => h l (List.mem_cons_of_mem _ hl)

theorem findContains_setFirst_same (uuid : String) (ns : List Loc) (loc : Loc) :
    ∀ (files : List FileDoc) (check : FileDoc),
      files.find? (fun f => f.locations.contains loc) = some check →
      check.uuid = uuid →
      ∃ c2, (setFirst (fun f => f.uuid == uuid) (addLocsTo ns) files).find?
          (fun f => f.locations.contains loc) = some c2 ∧ c2.uuid = uuid := by
  intro files
  induction files with
  | nil =>
    intro check h _
    simp at h
  | cons a as ih =>
    intro check h hcu
    by_cases hca : (a.locations.contains loc) = true
    · rw [List.find?_cons_of_pos (p := fun f : FileDoc => f.locations.contains loc) _ hca] at h
      injection h with h
      subst h
      by_cases hpa : (a.uuid == uuid) = true
      · have hca2 : ((addLocsTo ns a).locations.contains loc) = true := by
          have hm : loc ∈ addToSetEach a.locations ns :=
            mem_addToSetEach_left loc ns a.locations (by simpa using hca)
          simpa [addLocsTo] using hm
        refine ⟨addLocsTo ns a, ?_, hcu⟩
        simp only [setFirst, hpa, if_true]
        exact List.find?_cons_of_pos _ hca2
      · have hpa' : (a.uuid == uuid) = false := by simpa using hpa
        refine ⟨a, ?_, hcu⟩
        simp only [setFirst, hpa', Bool.false_eq_true, if_false]
        exact List.find?_cons_of_pos _ hca
    · rw [List.find?_cons_of_neg (p := fun f : FileDoc => f.locations.contains loc) _ hca] at h
      by_cases hpa : (a.uuid == uuid) = true
      · by_cases hca2 : ((addLocsTo ns a).locations.contains loc) = true
        · refine ⟨addLocsTo ns a, ?_, ?_⟩
          · simp only [setFirst, hpa, if_true]
            exact List.find?_cons_of_pos _ hca2
          · have huu : (addLocsTo ns a).uuid = a.uuid := rfl
            rw [huu]
            exact eq_of_beq hpa
        · refine ⟨check, ?_, hcu⟩
          simp only [setFirst, hpa, if_true]
          rw [List.find?_cons_of_neg (p := fun f : FileDoc => f.locations.contains loc) _ hca2]
          exact h
      · have hpa' : (a.uuid == uuid) = false := by simpa using hpa
        obtain ⟨c2, hc2, hc2u⟩ := ih check h hcu
        refine ⟨c2, ?_, hc2u⟩
        simp only [setFirst, hpa', Bool.false_eq_true, if_false]
        rw [List.find?_cons_of_neg (p := fun f : FileDoc => f.locations.contains loc) _ hca]
        exact hc2

theorem findContains_setFirst_fresh (uuid : String) (ns : List Loc) (loc : Loc) :
    ∀ (files : List FileDoc) (f0 : FileDoc),
      files.find? (fun f => f.locations.contains loc) = none →
      loc ∈ ns →
      files.find? (fun f => f.uuid == uuid) = some f0 →
      ∃ c2, (setFirst (fun f => f.uuid == uuid) (addLocsTo ns) files).find?
          (fun f => f.locations.contains loc) = some c2 ∧ c2.uuid = uuid := by
  intro files
  induction files with
  | nil =>
    intro f0 _ _ hf
    simp at hf
  | cons a as ih =>
    intro f0 hnone hmem hf
    have hca : ¬((a.locations.contains loc) = true) := by
      intro hc
      rw [List.find?_cons_of_pos (p := fun f : FileDoc => f.locations.contains loc) _ hc]
        at hnone
      cases hnone
    rw [List.find?_cons_of_neg (p := fun f : FileDoc => f.locations.contains loc) _ hca]
      at hnone
    by_cases hpa : (a.uuid == uuid) = true
    · refine ⟨addLocsTo ns a, ?_, eq_of_beq hpa⟩
      simp only [setFirst, hpa, if_true]
      have hca2 : ((addLocsTo ns a).locations.contains loc) = true := by
        have hm : loc ∈ addToSetEach a.locations ns :=
          mem_addToSetEach_right loc ns a.locations hmem
        simpa [addLocsTo] using hm
      exact List.find?_cons_of_pos _ hca2
    · have hpa' : (a.uuid == uuid) = false := by simpa using hpa
      rw [List.find?_cons_of_neg (p := fun f : FileDoc => f.uuid == uuid) _ hpa] at hf
      obtain ⟨c2, hc2, hc2u⟩ := ih f0 hnone hmem hf
      refine ⟨c2, ?_, hc2u⟩
      simp only [setFirst, hpa', Bool.false_eq_true, if_false]
      rw [List.find?_cons_of_neg (p := fun f : FileDoc => f.locations.contains loc) _ hca]
      exact hc2

theorem findUuid_setFirst_addLocs (uuid : String) (ns : List Loc) :
    ∀ (files : List FileDoc) (f0 : FileDoc),
      files.find? (fun f => f.uuid == uuid) = some f0 →
      (setFirst (fun f => f.uuid == uuid) (addLocsTo ns) files).find?
          (fun f => f.uuid == uuid) = some (addLocsTo ns f0) := by
  intro files
  induction files with
  | nil =>
    intro f0 h
    simp at h
  | cons a as ih =>
    intro f0 h
    by_cases hp : (a.uuid == uuid) = true
    · rw [List.find?_cons_of_pos (p := fun f : FileDoc => f.uuid == uuid) _ hp] at h
      injection h with h
      subst h
      simp only [setFirst, hp, if_true]
      exact List.find?_cons_of_pos _ hp
    · have hp' : (a.uuid == uuid) = false := by simpa using hp
      rw [List.find?_cons_of_neg (p := fun f : FileDoc => f.uuid == uuid) _ hp] at h
      simp only [setFirst, hp', Bool.false_eq_true, if_false]
      rw [List.find?_cons_of_neg (p := fun f : FileDoc => f.uuid == uuid) _ hp]
      exact ih f0 h

theorem exStore_locUnique : LocUnique exStore.files := by
  intro f g hf hg hne l hl hl2
  simp only [exStore, List.mem_cons, List.not_mem_nil, or_false] at hf hg
  rcases hf with rfl | rfl <;> rcases hg with rfl | rfl
  · exact hne rfl
  · simp [fileU1] at hl
    simp [fileU2] at hl2
    rw [hl] at hl2
    exact absurd hl2 (by decide)
  · simp [fileU2] at hl
    simp [fileU1] at hl2
    rw [hl] at hl2
    exact absurd hl2 (by decide)
  · exact hne rfl

/- ---------------------------------------------------------------------------
C4.  AddLocations aborts the whole batch on a foreign location.
--------------------------------------------------------------------------- -/

/-- C4: when some location of the batch is already registered on a record
whose uuid differs from the target, the whole AddLocations request fails with
the Conflict naming a location of the batch together with the other record's
uuid, and the store (hence the target record) is unchanged: nothing of the
batch is written. -/
theorem c4_addlocations_conflict_aborts (s : Store) (uuid : String) (locs : List Loc)
    (f0 : FileDoc) (hfind : getFileByUuid s uuid = some f0)
    (huniq : LocUnique s.files)
    (loc : Loc) (g : FileDoc) (hloc : loc ∈ locs) (hg : g ∈ s.files)
    (hgl : loc ∈ g.locations) (hgu : g.uuid ≠ uuid) :
    ∃ l u, locationsPost s uuid locs = (LocationsPostResult.conflictLocation l u, s) ∧
      l ∈ locs ∧ u ≠ uuid ∧ ∃ hf, hf ∈ s.files ∧ hf.uuid = u ∧ l ∈ hf.locations := by
  cases hscan : scanLocations s uuid locs with
  | ok ns =>
    exfalso
    rcases scan_ok_mem s uuid locs ns hscan loc hloc with ⟨hnone, _⟩ | ⟨check, hck, hcku⟩
    · have hng := List.find?_eq_none.mp hnone g hg
      exact hng (by simpa using hgl)
    · have hcm : check ∈ s.files := List.mem_of_find?_eq_some hck
      have hcl : loc ∈ check.locations := by
        have hp := List.find?_some hck
        simpa using hp
      have hne : check ≠ g := by
        intro hceq
        rw [hceq] at hcku
        exact hgu hcku
      exact huniq check g hcm hg hne loc hcl hgl
  | error e =>
    obtain ⟨l, u⟩ := e
    obtain ⟨hl, hu, hfp⟩ := scan_error_props s uuid locs l u hscan
    refine ⟨l, u, ?_, hl, hu, hfp⟩
    simp only [locationsPost, hfind, hscan]

/-- Witness for C4: adding locations loc2 (fresh) and loc3 (stored on u2) to
u1 aborts with the Conflict naming loc3 and u2, leaving the store unchanged. -/
theorem c4_addlocations_conflict_witness :
    ∃ l u, locationsPost exStore "u1" [loc2, loc3] =
        (LocationsPostResult.conflictLocation l u, exStore) ∧
      l ∈ [loc2, loc3] ∧ u ≠ "u1" ∧
      ∃ hf, hf ∈ exStore.files ∧ hf.uuid = u ∧ l ∈ hf.locations :=
  c4_addlocations_conflict_aborts exStore "u1" [loc2, loc3] fileU1 (by rfl)
    exStore_locUnique loc3 fileU2 (by decide) (by decide) (by decide) (by decide)

/- ---------------------------------------------------------------------------
C5.  AddLocations is idempotent.
--------------------------------------------------------------------------- -/

/-- C5: a successful AddLocations is idempotent: repeating the call with the
identical location list on the resulting store succeeds again, changes
nothing, and returns the same record, because every location of the list is
now found on the target record and is treated as a no-op. -/
theorem c5_addlocations_idempotent (s : Store) (uuid : String) (locs : List Loc)
    (d1 : FileDoc) (s1 : Store)
    (h : locationsPost s uuid locs = (LocationsPostResult.ok d1, s1)) :
    locationsPost s1 uuid locs = (LocationsPostResult.ok d1, s1) := by
  cases hfind : getFileByUuid s uuid with
  | none =>
    rw [locationsPost, hfind] at h
    simp at h
  | some dbFile =>
    cases hscan : scanLocations s uuid locs with
    | error e =>
      obtain ⟨l, u⟩ := e
      have hred : locationsPost s uuid locs =
          (LocationsPostResult.conflictLocation l u, s) := by
        simp only [locationsPost, hfind, hscan]
      rw [hred] at h
      simp at h
    | ok ns =>
      by_cases hemp : ns.isEmpty = true
      · have hred : locationsPost s uuid locs = (LocationsPostResult.ok dbFile, s) := by
          simp [locationsPost, hfind, hscan, hemp]
        rw [hred] at h
        have h1 : LocationsPostResult.ok dbFile = LocationsPostResult.ok d1 :=
          congrArg Prod.fst h
        have h2 : s = s1 := congrArg Prod.snd h
        injection h1 with h1
        subst h1
        subst h2
        exact hred
      · have hemp' : ns.isEmpty = false := by simpa using hemp
        by_cases hr : updateLocationsRaises s uuid ns = true
        · have hred : locationsPost s uuid locs =
              (LocationsPostResult.internalError
                "Internal error in SingleFileLocationsHandler", s) := by
            simp [locationsPost, hfind, hscan, hemp', hr]
          rw [hred] at h
          simp at h
        · have hr' : updateLocationsRaises s uuid ns = false := by simpa using hr
          have hup2 : getFileByUuid (appendDistinct s uuid ns) uuid =
              some (addLocsTo ns dbFile) :=
            findUuid_setFirst_addLocs uuid ns s.files dbFile hfind
          have hred : locationsPost s uuid locs =
              (LocationsPostResult.ok (addLocsTo ns dbFile), appendDistinct s uuid ns) := by
            simp [locationsPost, hfind, hscan, hemp', hr', hup2]
          rw [hred] at h
          have h1 : LocationsPostResult.ok (addLocsTo ns dbFile) =
              LocationsPostResult.ok d1 := congrArg Prod.fst h
          have h2 : appendDistinct s uuid ns = s1 := congrArg Prod.snd h
          injection h1 with h1
          subst h1
          subst h2
          have hall : ∀ loc ∈ locs,
              ∃ c, getFileByLocation (appendDistinct s uuid ns) loc = some c ∧
                c.uuid = uuid := by
            intro loc hl
            rcases scan_ok_mem s uuid locs ns hscan loc hl with ⟨hn, hm⟩ | ⟨check, hck, hcku⟩
            · exact findContains_setFirst_fresh uuid ns loc s.files dbFile hn hm hfind
            · exact findContains_setFirst_same uuid ns loc s.files check hck hcku
          have hscan2 : scanLocations (appendDistinct s uuid ns) uuid locs =
              Except.ok [] := scan_all_same_ok _ uuid locs hall
          simp [locationsPost, hup2, hscan2]

/-- Witness for C5: after successfully adding loc2 and loc4 to u1, repeating
the identical request succeeds, changes nothing and returns the same record. -/
theorem c5_addlocations_idempotent_witness :
    locationsPost (appendDistinct exStore "u1" [loc2, loc4]) "u1" [loc2, loc4] =
      (LocationsPostResult.ok
          { uuid := "u1", logical_name := "ln1", checksum := "sha1",
            locations := [loc1, loc2, loc4] },
        appendDistinct exStore "u1" [loc2, loc4]) :=
  c5_addlocations_idempotent exStore "u1" [loc2, loc4] _ _ (by rfl)

/- ---------------------------------------------------------------------------
C6.  Snapshots are frozen.
--------------------------------------------------------------------------- -/

theorem filesPost_snapshots (s : Store) (md : FileDoc) (v p : Bool) :
    ((filesPost s md v p).2).snapshots = s.snapshots := by
  unfold filesPost
  repeat' split
  all_goals rfl

theorem singleFilePatch_snapshots (s : Store) (uuid : String) (m : PartialMeta)
    (a b c : Bool) :
    ((singleFilePatch s uuid m a b c).2).snapshots = s.snapshots := by
  unfold singleFilePatch
  repeat' split
  all_goals rfl

theorem singleFilePut_snapshots (s : Store) (uuid : String) (body : FileDoc)
    (a b c : Bool) :
    ((singleFilePut s uuid body a b c).2).snapshots = s.snapshots := by
  unfold singleFilePut
  repeat' split
  all_goals rfl

theorem singleFileDelete_snapshots (s : Store) (uuid : String) :
    ((singleFileDelete s uuid).2).snapshots = s.snapshots := by
  unfold singleFileDelete
  repeat' split
  all_goals rfl

theorem locationsPost_snapshots (s : Store) (uuid : String) (locs : List Loc) :
    ((locationsPost s uuid locs).2).snapshots = s.snapshots := by
  unfold locationsPost
  repeat' split
  all_goals try rfl
  all_goals simp only []
  all_goals (split <;> rfl)

theorem collectionsPost_snapshots (s : Store) (md : CollDoc) :
    ((collectionsPost s md).2).snapshots = s.snapshots := by
  unfold collectionsPost
  repeat' split
  all_goals rfl

theorem snapshotsPost_snapshots_mem (s : Store) (uid : String) (b : SnapBody)
    (g : String) (snap : SnapDoc) (h : snap ∈ s.snapshots) :
    snap ∈ ((snapshotsPost s uid b g).2).snapshots := by
  unfold snapshotsPost
  repeat' split
  all_goals try exact h
  all_goals simp only []
  all_goals split
  all_goals first
    | exact h
    | exact List.mem_append_left _ h

/-- C6: no operation of the core ever removes or rewrites an existing snapshot
document, and in the concrete scenario a snapshot capturing files A and B
still reads back exactly A and B after file B is deleted and a new matching
file C is created. -/
theorem c6_snapshots_frozen :
    (∀ (s : Store) (op : Op) (snap : SnapDoc),
      snap ∈ s.snapshots → snap ∈ (stepOp s op).snapshots) ∧
    (snapshotsPost snapStore0 "u-col" { uuid := some "snap1" } "gen-uuid").1 =
      SnapPostResult.created
        { uuid := "snap1", collection_id := "u-col", owner := "alice",
          files := ["A", "B"] } ∧
    (singleFileDelete snapStore1 "B").1 = DeleteResult.noContent ∧
    (filesPost snapStore2 fileC true true).1 = FilesPostResult.created "C" ∧
    singleSnapshotGet snapStore3 "snap1" =
      some { uuid := "snap1", collection_id := "u-col", owner := "alice",
             files := ["A", "B"] } := by
  refine ⟨?_, rfl, rfl, rfl, rfl⟩
  intro s op snap h
  cases op with
  | createFile md v p =>
    show snap ∈ ((filesPost s md v p).2).snapshots
    rw [filesPost_snapshots]
    exact h
  | patchFile uuid m a b c =>
    show snap ∈ ((singleFilePatch s uuid m a b c).2).snapshots
    rw [singleFilePatch_snapshots]
    exact h
  | putFile uuid body a b c =>
    show snap ∈ ((singleFilePut s uuid body a b c).2).snapshots
    rw [singleFilePut_snapshots]
    exact h
  | deleteFile uuid =>
    show snap ∈ ((singleFileDelete s uuid).2).snapshots
    rw [singleFileDelete_snapshots]
    exact h
  | addLocations uuid locs =>
    show snap ∈ ((locationsPost s uuid locs).2).snapshots
    rw [locationsPost_snapshots]
    exact h
  | createCollection md =>
    show snap ∈ ((collectionsPost s md).2).snapshots
    rw [collectionsPost_snapshots]
    exact h
  | createSnapshot uid b g =>
    exact snapshotsPost_snapshots_mem s uid b g snap h

/-- Witness for C6: the concrete snapshot survives the deletion of file B
untouched. -/
theorem c6_snapshots_frozen_witness :
    ({ uuid := "snap1", collection_id := "u-col", owner := "alice",
       files := ["A", "B"] } : SnapDoc) ∈
      (stepOp snapStore1 (Op.deleteFile "B")).snapshots :=
  c6_snapshots_frozen.1 snapStore1 (Op.deleteFile "B") _ (by decide)

end FileCatalog
